import Mathlib

/-!
Verification of the precision-recall tutorial notebook
(`plot_precision_recall`).  The notebook's own code is glue around
library calls; the library routines it showcases
(`precision_recall_curve`, `average_precision_score`,
`train_test_split`, the pseudo-random generator) are not part of the
repository, so they are modelled here from the spec's glossary and from
the notebook's own markdown formulas.  The iso-F1 curve computation in
the final plotting cell is the notebook's own arithmetic and is
embedded directly from the source.
-/

namespace PrecisionRecall

/-- An item of a binary problem: a ground-truth label paired with a
classifier score.  The notebook feeds `precision_recall_curve` a label
vector and a score vector; we pair them up. -/
abbrev Item := Bool × ℚ

/-- Number of true positives at threshold `t`: items that are truly
positive and whose score is at or above the threshold.  Modelled from
the spec: the notebook markdown defines `P = Tp / (Tp + Fp)` with
predicted-positive meaning score at or above the decision threshold. -/
def tpCount (t : ℚ) : List Item → Nat
  | [] => 0
  | p :: ps => (if p.1 = true ∧ t ≤ p.2 then 1 else 0) + tpCount t ps

/-- Number of false positives at threshold `t`: items that are truly
negative but whose score is at or above the threshold. -/
def fpCount (t : ℚ) : List Item → Nat
  | [] => 0
  | p :: ps => (if p.1 = false ∧ t ≤ p.2 then 1 else 0) + fpCount t ps

/-- Number of false negatives at threshold `t`: items that are truly
positive but whose score is below the threshold. -/
def fnCount (t : ℚ) : List Item → Nat
  | [] => 0
  | p :: ps => (if p.1 = true ∧ p.2 < t then 1 else 0) + fnCount t ps

/-- Number of items predicted positive at threshold `t`: score at or
above the threshold. -/
def predPosCount (t : ℚ) : List Item → Nat
  | [] => 0
  | p :: ps => (if t ≤ p.2 then 1 else 0) + predPosCount t ps

/-- Number of truly positive items, independent of any threshold. -/
def posCount : List Item → Nat
  | [] => 0
  | p :: ps => (if p.1 = true then 1 else 0) + posCount ps

/-- Insert a rational into a list sorted in descending order. -/
def insertDesc (a : ℚ) : List ℚ → List ℚ
  | [] => [a]
  | b :: bs => if b ≤ a then a :: b :: bs else b :: insertDesc a bs

/-- Sort a list of rationals in descending order (insertion sort). -/
def sortDesc (l : List ℚ) : List ℚ := l.foldr insertDesc []

/-- The decision thresholds of a problem: the distinct score values,
taken in descending order, so that recall increases along the list. -/
def thresholdsOf (ps : List Item) : List ℚ :=
  sortDesc (ps.map Prod.snd).dedup

/-- The (precision, recall) operating point at threshold `t`.  Modelled
from the spec: precision is `Tp / (Tp + Fp)` and recall is
`Tp / (Tp + Fn)`, as stated in the notebook's markdown. -/
def prPoint (ps : List Item) (t : ℚ) : ℚ × ℚ :=
  ((tpCount t ps : ℚ) / ((tpCount t ps : ℚ) + (fpCount t ps : ℚ)),
   (tpCount t ps : ℚ) / ((tpCount t ps : ℚ) + (fnCount t ps : ℚ)))

/-- The precision-recall curve of a paired problem: one operating point
per decision threshold. -/
def curveOf (ps : List Item) : List (ℚ × ℚ) :=
  (thresholdsOf ps).map (prPoint ps)

/-- Modelled from the spec: `sklearn.metrics.precision_recall_curve`,
whose body is not under `src/` (the notebook only calls it).  It
receives a label vector and a score vector and returns precision/recall
pairs at varying decision thresholds. -/
def precision_recall_curve (labels : List Bool) (scores : List ℚ) :
    List (ℚ × ℚ) :=
  curveOf (labels.zip scores)

/-- One step of the average-precision accumulation: the state is the
running sum together with the previous recall value, and each operating
point `(p, r)` contributes `(r - r_prev) * p`. -/
def apStep (s : ℚ × ℚ) (pr : ℚ × ℚ) : ℚ × ℚ :=
  (s.1 + (pr.2 - s.2) * pr.1, pr.2)

/-- Average precision of a paired problem: fold the weighted-mean
accumulation over the curve, starting from sum `0` and previous recall
`0`.  Modelled from the spec: the notebook markdown defines
`AP = sum_n (R_n - R_{n-1}) P_n`. -/
def average_precision_pairs (ps : List Item) : ℚ :=
  ((curveOf ps).foldl apStep ((0 : ℚ), (0 : ℚ))).1

/-- Modelled from the spec: `sklearn.metrics.average_precision_score`
on a binary problem, whose body is not under `src/`. -/
def average_precision_score (labels : List Bool) (scores : List ℚ) : ℚ :=
  average_precision_pairs (labels.zip scores)

/-- Modelled from the spec: `average_precision_score(..., average="micro")`
on a label indicator matrix and a score matrix.  Micro-averaging
aggregates the predictions of all classes of the two matrices into one
binary problem before computing a single precision-recall curve. -/
def average_precision_score_micro (Y : List (List Bool))
    (S : List (List ℚ)) : ℚ :=
  average_precision_pairs (List.zipWith List.zip Y S).flatten

lemma tpCount_add_fpCount (t : ℚ) (ps : List Item) :
    tpCount t ps + fpCount t ps = predPosCount t ps := by
  induction ps with
  | nil => rfl
  | cons p ps ih =>
    rcases p with ⟨b, s⟩
    by_cases ht : t ≤ s <;> cases b <;>
      simp [tpCount, fpCount, predPosCount, ht] <;> omega

lemma tpCount_add_fnCount (t : ℚ) (ps : List Item) :
    tpCount t ps + fnCount t ps = posCount ps := by
  induction ps with
  | nil => rfl
  | cons p ps ih =>
    rcases p with ⟨b, s⟩
    by_cases ht : t ≤ s
    · have hlt : ¬ s < t := not_lt.mpr ht
      cases b <;> simp [tpCount, fnCount, posCount, ht, hlt] <;> omega
    · have hlt : s < t := not_le.mp ht
      cases b <;> simp [tpCount, fnCount, posCount, ht, hlt] <;> omega

lemma prPoint_fst (ps : List Item) (t : ℚ) :
    (prPoint ps t).1 = (tpCount t ps : ℚ) / (predPosCount t ps : ℚ) := by
  have h : ((tpCount t ps : ℚ) + (fpCount t ps : ℚ))
      = (predPosCount t ps : ℚ) := by
    rw [← tpCount_add_fpCount t ps]; push_cast; ring
  simp [prPoint, h]

lemma prPoint_snd (ps : List Item) (t : ℚ) :
    (prPoint ps t).2 = (tpCount t ps : ℚ) / (posCount ps : ℚ) := by
  have h : ((tpCount t ps : ℚ) + (fnCount t ps : ℚ))
      = (posCount ps : ℚ) := by
    rw [← tpCount_add_fnCount t ps]; push_cast; ring
  simp [prPoint, h]

/-- C2: at every decision threshold, the precision value produced by the
curve computation is on the curve and equals the fraction of
predicted-positive items (score at or above the threshold) that are
truly positive, i.e. `TP / (TP + FP)`. -/
theorem precision_eq_fraction_pred_pos (labels : List Bool)
    (scores : List ℚ) (t : ℚ)
    (ht : t ∈ thresholdsOf (labels.zip scores)) :
    prPoint (labels.zip scores) t ∈ precision_recall_curve labels scores ∧
    (prPoint (labels.zip scores) t).1 =
      (tpCount t (labels.zip scores) : ℚ) /
        (predPosCount t (labels.zip scores) : ℚ) := by
  constructor
  · exact List.mem_map_of_mem (prPoint (labels.zip scores)) ht
  · exact prPoint_fst (labels.zip scores) t

/-- C2 witness: a concrete binary problem where the precision at the top
threshold is the fraction of predicted positives that are true. -/
theorem precision_eq_fraction_pred_pos_witness :
    (2 : ℚ) ∈ thresholdsOf ([true, false].zip [(1 : ℚ), 2]) ∧
    (prPoint ([true, false].zip [(1 : ℚ), 2]) 2 ∈
        precision_recall_curve [true, false] [(1 : ℚ), 2] ∧
      (prPoint ([true, false].zip [(1 : ℚ), 2]) 2).1 =
        (tpCount 2 ([true, false].zip [(1 : ℚ), 2]) : ℚ) /
          (predPosCount 2 ([true, false].zip [(1 : ℚ), 2]) : ℚ)) :=
  ⟨by decide,
   precision_eq_fraction_pred_pos [true, false] [(1 : ℚ), 2] 2 (by decide)⟩

/-- C3: at every decision threshold, the recall value produced by the
curve computation is on the curve and equals the fraction of truly
positive items that are predicted positive, i.e. `TP / (TP + FN)`; and
the denominator `TP + FN` is the same (the total number of positives)
at every threshold. -/
theorem recall_eq_fraction_pos (labels : List Bool) (scores : List ℚ)
    (t : ℚ) (ht : t ∈ thresholdsOf (labels.zip scores)) :
    prPoint (labels.zip scores) t ∈ precision_recall_curve labels scores ∧
    (prPoint (labels.zip scores) t).2 =
      (tpCount t (labels.zip scores) : ℚ) /
        (posCount (labels.zip scores) : ℚ) ∧
    ∀ u : ℚ, tpCount u (labels.zip scores) + fnCount u (labels.zip scores)
      = posCount (labels.zip scores) := by
  refine ⟨List.mem_map_of_mem (prPoint (labels.zip scores)) ht,
    prPoint_snd (labels.zip scores) t, fun u => tpCount_add_fnCount u _⟩

/-- C3 witness: the recall identity and the threshold-independent
denominator on a concrete binary problem. -/
theorem recall_eq_fraction_pos_witness :
    (2 : ℚ) ∈ thresholdsOf ([true, false].zip [(1 : ℚ), 2]) ∧
    (prPoint ([true, false].zip [(1 : ℚ), 2]) 2 ∈
        precision_recall_curve [true, false] [(1 : ℚ), 2] ∧
      (prPoint ([true, false].zip [(1 : ℚ), 2]) 2).2 =
        (tpCount 2 ([true, false].zip [(1 : ℚ), 2]) : ℚ) /
          (posCount ([true, false].zip [(1 : ℚ), 2]) : ℚ) ∧
      ∀ u : ℚ, tpCount u ([true, false].zip [(1 : ℚ), 2]) +
          fnCount u ([true, false].zip [(1 : ℚ), 2]) =
        posCount ([true, false].zip [(1 : ℚ), 2])) :=
  ⟨by decide, recall_eq_fraction_pos [true, false] [(1 : ℚ), 2] 2 (by decide)⟩

lemma foldl_apStep (pts : List (ℚ × ℚ)) :
    ∀ acc prev : ℚ,
      (pts.foldl apStep (acc, prev)).1 =
        acc + ∑ n in Finset.range pts.length,
          ((pts.getD n ((0 : ℚ), (0 : ℚ))).2 -
              (if n = 0 then prev
               else (pts.getD (n - 1) ((0 : ℚ), (0 : ℚ))).2)) *
            (pts.getD n ((0 : ℚ), (0 : ℚ))).1 := by
  induction pts with
  | nil => intro acc prev; simp
  | cons p ps ih =>
    intro acc prev
    have hstep : apStep (acc, prev) p = (acc + (p.2 - prev) * p.1, p.2) := rfl
    rw [List.foldl_cons, hstep, ih (acc + (p.2 - prev) * p.1) p.2,
      List.length_cons, Finset.sum_range_succ']
    have hcongr : ∀ n ∈ Finset.range ps.length,
        (((p :: ps).getD (n + 1) ((0 : ℚ), (0 : ℚ))).2 -
            (if n + 1 = 0 then prev
             else ((p :: ps).getD (n + 1 - 1) ((0 : ℚ), (0 : ℚ))).2)) *
          ((p :: ps).getD (n + 1) ((0 : ℚ), (0 : ℚ))).1 =
        ((ps.getD n ((0 : ℚ), (0 : ℚ))).2 -
            (if n = 0 then p.2
             else (ps.getD (n - 1) ((0 : ℚ), (0 : ℚ))).2)) *
          (ps.getD n ((0 : ℚ), (0 : ℚ))).1 := by
      intro n _
      cases n with
      | zero => simp
      | succ m => simp
    rw [Finset.sum_congr rfl hcongr]
    simp only [List.getD_cons_zero, if_true, ite_true]
    ring

/-- C4: the average-precision score is the weighted mean of the
precision values across the recall thresholds of the precision-recall
curve, with the increase in recall from the previous threshold as the
weight: `AP = sum_n (R_n - R_{n-1}) * P_n` (with `R_{-1} = 0`). -/
theorem average_precision_eq_weighted_sum (labels : List Bool)
    (scores : List ℚ) :
    average_precision_score labels scores =
      ∑ n in Finset.range (precision_recall_curve labels scores).length,
        (((precision_recall_curve labels scores).getD n
              ((0 : ℚ), (0 : ℚ))).2 -
            (if n = 0 then 0
             else ((precision_recall_curve labels scores).getD (n - 1)
                ((0 : ℚ), (0 : ℚ))).2)) *
          ((precision_recall_curve labels scores).getD n
            ((0 : ℚ), (0 : ℚ))).1 := by
  have h := foldl_apStep (curveOf (labels.zip scores)) 0 0
  simpa [average_precision_score, average_precision_pairs,
    precision_recall_curve] using h

lemma zipWith_zip_flatten :
    ∀ (Y : List (List Bool)) (S : List (List ℚ)),
      Y.map List.length = S.map List.length →
      (List.zipWith List.zip Y S).flatten = Y.flatten.zip S.flatten := by
  intro Y
  induction Y with
  | nil =>
    intro S h
    have : S = [] := by
      cases S with
      | nil => rfl
      | cons s S => simp at h
    subst this; rfl
  | cons y Y ih =>
    intro S h
    cases S with
    | nil => simp at h
    | cons s S =>
      simp only [List.map_cons, List.cons.injEq] at h
      rw [List.zipWith_cons_cons, List.flatten_cons, List.flatten_cons,
        List.flatten_cons, List.zip_append h.1, ih S h.2]

/-- C5: the micro-averaged average-precision score on a label indicator
matrix and score matrix of equal shape equals the average-precision
score of the single binary problem obtained by flattening both
matrices: micro-averaging aggregates the predictions of all classes
before computing one precision-recall curve. -/
theorem micro_average_eq_flattened (Y : List (List Bool))
    (S : List (List ℚ)) (h : Y.map List.length = S.map List.length) :
    average_precision_score_micro Y S =
      average_precision_score Y.flatten S.flatten := by
  rw [average_precision_score_micro, average_precision_score,
    zipWith_zip_flatten Y S h]

/-- C5 witness: a concrete 2-by-2 pair of matrices, where the
micro-averaged score coincides with the score of the flattened
problem. -/
theorem micro_average_eq_flattened_witness :
    [[true, false], [false, true]].map List.length =
      [[(3 : ℚ), 1], [2, 4]].map List.length ∧
    average_precision_score_micro [[true, false], [false, true]]
        [[(3 : ℚ), 1], [2, 4]] =
      average_precision_score [[true, false], [false, true]].flatten
        [[(3 : ℚ), 1], [2, 4]].flatten :=
  ⟨rfl, micro_average_eq_flattened [[true, false], [false, true]]
    [[(3 : ℚ), 1], [2, 4]] rfl⟩

/-- Modelled from the spec: `numpy.linspace(a, b, num)`, the library
routine the plotting cell calls — `num` evenly spaced points from `a`
to `b` inclusive. -/
def linspace (a b : ℚ) (num : Nat) : List ℚ :=
  (List.range num).map fun (i : ℕ) =>
    a + (i : ℚ) * ((b - a) / ((num : ℚ) - 1))

/-- The four f-scores of the iso-F1 plotting loop:
`np.linspace(0.2, 0.8, num=4)` from the source. -/
def fScores : List ℚ := linspace (1 / 5) (4 / 5) 4

/-- The sampled x grid of the iso-F1 plotting loop:
`np.linspace(0.01, 1)` (50 points by default) from the source. -/
def xGrid : List ℚ := linspace (1 / 100) 1 50

/-- The iso-F1 curve formula evaluated by the notebook's own code:
`y = f_score * x / (2 * x - f_score)`. -/
def isoF1 (f x : ℚ) : ℚ := f * x / (2 * x - f)

lemma mem_xGrid (x : ℚ) (hx : x ∈ xGrid) :
    ∃ k : ℕ, k < 50 ∧ x = (49 + 99 * (k : ℚ)) / 4900 := by
  unfold xGrid linspace at hx
  rw [List.mem_map] at hx
  obtain ⟨i, hi, rfl⟩ := hx
  refine ⟨i, List.mem_range.mp hi, ?_⟩
  field_simp
  ring

lemma mem_fScores (f : ℚ) (hf : f ∈ fScores) :
    ∃ j : ℕ, j < 4 ∧ f = ((j : ℚ) + 1) / 5 := by
  unfold fScores linspace at hf
  rw [List.mem_map] at hf
  obtain ⟨i, hi, rfl⟩ := hf
  refine ⟨i, List.mem_range.mp hi, ?_⟩
  field_simp
  ring

lemma xGrid_pos : ∀ x ∈ xGrid, 0 < x := by
  intro x hx
  obtain ⟨k, _, rfl⟩ := mem_xGrid x hx
  positivity

lemma iso_denom_ne : ∀ f ∈ fScores, ∀ x ∈ xGrid, 2 * x - f ≠ 0 := by
  intro f hf x hx
  obtain ⟨j, hj, rfl⟩ := mem_fScores f hf
  obtain ⟨k, hk, rfl⟩ := mem_xGrid x hx
  intro h
  rw [sub_eq_zero] at h
  field_simp at h
  norm_cast at h
  omega

lemma one_mem_xGrid : (1 : ℚ) ∈ xGrid := by
  unfold xGrid linspace
  rw [List.mem_map]
  exact ⟨49, List.mem_range.mpr (by norm_num), by norm_num⟩

lemma fifth_mem_fScores : (1 / 5 : ℚ) ∈ fScores := by
  unfold fScores linspace
  rw [List.mem_map]
  exact ⟨0, List.mem_range.mpr (by norm_num), by norm_num⟩

/-- C9: the division in the iso-F1 curve computation is safe — for
every f-score in `linspace(0.2, 0.8, 4)` and every x in
`linspace(0.01, 1)`, the denominator `2 * x - f` is nonzero. -/
theorem isoF1_denominator_ne_zero :
    ∀ f ∈ fScores, ∀ x ∈ xGrid, 2 * x - f ≠ 0 :=
  iso_denom_ne

/-- C9 witness: the first f-score and the last grid point satisfy the
hypotheses, and the denominator there is nonzero. -/
theorem isoF1_denominator_ne_zero_witness :
    (1 / 5 : ℚ) ∈ fScores ∧ (1 : ℚ) ∈ xGrid ∧
      2 * (1 : ℚ) - 1 / 5 ≠ 0 :=
  ⟨fifth_mem_fScores, one_mem_xGrid,
    isoF1_denominator_ne_zero (1 / 5) fifth_mem_fScores 1 one_mem_xGrid⟩

/-- C8: every plotted iso-F1 point lies on its curve's F1 level set —
for every f-score in the loop, every x in the sampled grid, with
`y = f * x / (2 * x - f)` and `y ≥ 0`, the harmonic-mean F1 of the
pair, `2 * x * y / (x + y)`, equals the f-score. -/
theorem isoF1_points_on_level_set (f : ℚ) (hf : f ∈ fScores) (x : ℚ)
    (hx : x ∈ xGrid) (_hy : 0 ≤ isoF1 f x) :
    2 * x * isoF1 f x / (x + isoF1 f x) = f := by
  have hxpos : 0 < x := xGrid_pos x hx
  have hx0 : x ≠ 0 := ne_of_gt hxpos
  have hd : 2 * x - f ≠ 0 := iso_denom_ne f hf x hx
  have hsum : x + isoF1 f x = 2 * x ^ 2 / (2 * x - f) := by
    rw [isoF1]; field_simp; ring
  have hnum : (2 : ℚ) * x ^ 2 ≠ 0 := by
    have : x ^ 2 ≠ 0 := pow_ne_zero 2 hx0
    exact mul_ne_zero two_ne_zero this
  have hsumne : x + isoF1 f x ≠ 0 := by
    rw [hsum]; exact div_ne_zero hnum hd
  rw [div_eq_iff hsumne, isoF1]
  field_simp
  ring

/-- C8 witness: at `f = 0.2` and `x = 1` (the last grid point) the
computed y is nonnegative and the F1 of the plotted pair is `0.2`. -/
theorem isoF1_points_on_level_set_witness :
    (1 / 5 : ℚ) ∈ fScores ∧ (1 : ℚ) ∈ xGrid ∧
      0 ≤ isoF1 (1 / 5) 1 ∧
      2 * (1 : ℚ) * isoF1 (1 / 5) 1 / (1 + isoF1 (1 / 5) 1) = 1 / 5 :=
  ⟨fifth_mem_fScores, one_mem_xGrid, by norm_num [isoF1],
    isoF1_points_on_level_set (1 / 5) fifth_mem_fScores 1 one_mem_xGrid
      (by norm_num [isoF1])⟩

/-- The computational steps of the notebook, in source order.  A step
is a call into the third-party library except for the iso-F1 curve
evaluation in the final plotting cell, which is arithmetic performed by
the notebook's own code. -/
inductive Step where
  | loadIris
  | addNoisyFeatures
  | restrictTwoClasses
  | splitBinary
  | fitBinarySVC
  | scoreBinary
  | apBinary
  | curveBinary
  | plotBinaryCurve
  | binarizeLabels
  | splitMulti
  | fitOneVsRest
  | scoreMulti
  | curveClass (i : Nat)
  | apClass (i : Nat)
  | curveMicro
  | apMicro
  | plotMicroCurve
  | isoF1Curve (k : Nat)
  | plotIsoF1 (k : Nat)
  | plotMicroAll
  | plotClassCurve (i : Nat)
deriving DecidableEq

/-- Number of classes of the binarized labels:
`label_binarize(y, classes=[0, 1, 2])` gives `n_classes = 3`. -/
def nClasses : Nat := 3

/-- The steps of the binary-classification section of the notebook
(cells 4 to 9): load the iris data, add noisy features, restrict to the
two first classes, split half/half, fit the linear SVC, compute
decision scores, the average precision, the curve, and plot it. -/
def binarySteps : List Step :=
  [Step.loadIris, Step.addNoisyFeatures, Step.restrictTwoClasses,
   Step.splitBinary, Step.fitBinarySVC, Step.scoreBinary, Step.apBinary,
   Step.curveBinary, Step.plotBinaryCurve]

/-- The steps of the multi-label section of the notebook (cells 11 to
17): binarize the labels, split, fit one-vs-rest, score, per-class
curves and average precisions, the micro-averaged curve and score and
its plot, the iso-F1 curves, and the combined plot with one curve per
class plus the micro-average. -/
def multiLabelSteps : List Step :=
  [Step.binarizeLabels, Step.splitMulti, Step.fitOneVsRest,
   Step.scoreMulti,
   Step.curveClass 0, Step.apClass 0, Step.curveClass 1, Step.apClass 1,
   Step.curveClass 2, Step.apClass 2,
   Step.curveMicro, Step.apMicro, Step.plotMicroCurve,
   Step.isoF1Curve 0, Step.plotIsoF1 0, Step.isoF1Curve 1,
   Step.plotIsoF1 1, Step.isoF1Curve 2, Step.plotIsoF1 2,
   Step.isoF1Curve 3, Step.plotIsoF1 3,
   Step.plotMicroAll,
   Step.plotClassCurve 0, Step.plotClassCurve 1, Step.plotClassCurve 2]

/-- All computational steps of the notebook in source order. -/
def notebookSteps : List Step := binarySteps ++ multiLabelSteps

/-- Whether a step is a direct call into the third-party library.  The
iso-F1 curve values `y = f_score * x / (2 * x - f_score)` are computed
by the notebook's own arithmetic (cell 17), not by a library
routine. -/
def stepIsLibraryCall : Step → Bool
  | Step.isoF1Curve _ => false
  | _ => true

/-- C1 counterexample: not every computational step of the notebook is
a direct library call — the iso-F1 curve computation is the notebook's
own arithmetic, so the claim as stated is false. -/
theorem notebook_has_own_arithmetic :
    ¬ ∀ s ∈ notebookSteps, stepIsLibraryCall s = true := by
  intro h
  exact absurd (h (Step.isoF1Curve 0) (by decide)) (by decide)

/-- C1 amended: every computational step of the notebook except the
four iso-F1 reference-curve evaluations (the notebook's own arithmetic
`y = f_score * x / (2 * x - f_score)`, whose values are plotted) is a
direct call into the third-party library. -/
theorem own_arithmetic_only_isoF1 :
    notebookSteps.filter (fun s => ! stepIsLibraryCall s) =
      [Step.isoF1Curve 0, Step.isoF1Curve 1, Step.isoF1Curve 2,
       Step.isoF1Curve 3] := by
  decide

/-- C7: the notebook performs the binary-classification section first
and the multi-label section after it, and in the multi-label section it
computes a precision-recall curve and an average-precision score and
plots a curve for every one of the `nClasses` classes of the binarized
labels, plus the micro-averaged curve, score and plot. -/
theorem binary_then_multilabel_structure :
    notebookSteps = binarySteps ++ multiLabelSteps ∧
    ((List.range nClasses).all fun i =>
      decide (Step.curveClass i ∈ multiLabelSteps) &&
      decide (Step.apClass i ∈ multiLabelSteps) &&
      decide (Step.plotClassCurve i ∈ multiLabelSteps)) = true ∧
    Step.curveMicro ∈ multiLabelSteps ∧
    Step.apMicro ∈ multiLabelSteps ∧
    Step.plotMicroCurve ∈ multiLabelSteps ∧
    Step.plotMicroAll ∈ multiLabelSteps := by
  refine ⟨rfl, by decide, by decide, by decide, by decide, by decide⟩

/-- Restrict a dataset of (features, label) pairs to the two first
classes: the notebook's `X[y < 2]`, `y[y < 2]`. -/
def restrictFirstTwo (samples : List (α × Nat)) : List (α × Nat) :=
  samples.filter fun p => p.2 < 2

/-- Modelled from the spec: `train_test_split(..., test_size=.5)`,
whose body is not under `src/`.  After the library has shuffled the
data with its seeded generator, it holds out `ceil(n/2)` samples as the
test set and keeps the rest for training; we split the shuffled list
accordingly, returning `(train, test)`. -/
def train_test_split (shuffled : List α) : List α × List α :=
  (shuffled.drop ((shuffled.length + 1) / 2),
   shuffled.take ((shuffled.length + 1) / 2))

/-- C6: in the binary case the program restricts the samples to the two
first classes (labels `y < 2`) and trains on half of them: for any
dataset and any shuffle of the restricted samples, the train and test
parts together are exactly the restricted samples, every sample in both
parts has label below 2, and (the restricted count being even, as for
the 100 first iris samples) each part holds exactly half. -/
theorem binary_split_half_first_two_classes
    (samples : List (Nat × Nat)) (shuffled : List (Nat × Nat))
    (hperm : shuffled.Perm (restrictFirstTwo samples))
    (heven : (restrictFirstTwo samples).length % 2 = 0) :
    ((train_test_split shuffled).2 ++ (train_test_split shuffled).1).Perm
        (restrictFirstTwo samples) ∧
    (∀ p ∈ (train_test_split shuffled).1, p.2 < 2) ∧
    (∀ p ∈ (train_test_split shuffled).2, p.2 < 2) ∧
    (train_test_split shuffled).1.length =
      (train_test_split shuffled).2.length ∧
    (train_test_split shuffled).1.length +
        (train_test_split shuffled).2.length =
      (restrictFirstTwo samples).length := by
  have hlen : shuffled.length = (restrictFirstTwo samples).length :=
    hperm.length_eq
  have hmem : ∀ p ∈ shuffled, p.2 < 2 := by
    intro p hp
    have hp2 : p ∈ restrictFirstTwo samples := hperm.mem_iff.mp hp
    have := List.of_mem_filter hp2
    simpa using this
  refine ⟨?_, ?_, ?_, ?_, ?_⟩
  · rw [train_test_split, List.take_append_drop]
    exact hperm
  · intro p hp
    exact hmem p ((shuffled.drop_sublist _).subset hp)
  · intro p hp
    exact hmem p ((shuffled.take_sublist _).subset hp)
  · rw [train_test_split]
    simp only [List.length_drop, List.length_take]
    omega
  · rw [train_test_split]
    simp only [List.length_drop, List.length_take]
    omega

/-- C6 witness: a concrete five-sample dataset with four samples in the
two first classes, and a concrete shuffle of its restriction. -/
theorem binary_split_half_first_two_classes_witness :
    [(3, 1), (0, 0), (2, 0), (1, 1)].Perm
        (restrictFirstTwo [(0, 0), (1, 1), (2, 0), (3, 1), (4, 2)]) ∧
    (restrictFirstTwo [(0, 0), (1, 1), (2, 0), (3, 1), (4, 2)]).length % 2
        = 0 ∧
    (((train_test_split [(3, 1), (0, 0), (2, 0), (1, 1)]).2 ++
          (train_test_split [(3, 1), (0, 0), (2, 0), (1, 1)]).1).Perm
        (restrictFirstTwo [(0, 0), (1, 1), (2, 0), (3, 1), (4, 2)]) ∧
      (∀ p ∈ (train_test_split [(3, 1), (0, 0), (2, 0), (1, 1)]).1,
        p.2 < 2) ∧
      (∀ p ∈ (train_test_split [(3, 1), (0, 0), (2, 0), (1, 1)]).2,
        p.2 < 2) ∧
      (train_test_split [(3, 1), (0, 0), (2, 0), (1, 1)]).1.length =
        (train_test_split [(3, 1), (0, 0), (2, 0), (1, 1)]).2.length ∧
      (train_test_split [(3, 1), (0, 0), (2, 0), (1, 1)]).1.length +
          (train_test_split [(3, 1), (0, 0), (2, 0), (1, 1)]).2.length =
        (restrictFirstTwo
          [(0, 0), (1, 1), (2, 0), (3, 1), (4, 2)]).length) :=
  ⟨by decide, by decide,
    binary_split_half_first_two_classes
      [(0, 0), (1, 1), (2, 0), (3, 1), (4, 2)]
      [(3, 1), (0, 0), (2, 0), (1, 1)] (by decide) (by decide)⟩

/-- Modelled from the spec: `numpy.random.RandomState`, whose body is
not under `src/`.  A pseudo-random generator is a deterministic
function of its seed and of how many values have been drawn; the
notebook creates a single `RandomState(0)` and threads it through the
noisy-feature generation, both train/test splits, and both
classifiers. -/
structure RandomState where
  seed : Nat
  ctr : Nat
deriving DecidableEq

/-- The notebook's `np.random.RandomState(0)` seeding. -/
def mkRandomState (seed : Nat) : RandomState := ⟨seed, 0⟩

/-- Draw one pseudo-random value, advancing the generator state. -/
def drawNat (r : RandomState) : Nat × RandomState :=
  (((r.seed + r.ctr + 1) * 2654435761) % 4294967296, ⟨r.seed, r.ctr + 1⟩)

/-- Draw a list of `n` pseudo-random rationals. -/
def drawList (r : RandomState) : Nat → List ℚ × RandomState
  | 0 => ([], r)
  | n + 1 =>
    let (v, r') := drawNat r
    let (vs, r'') := drawList r' n
    ((v : ℚ) :: vs, r'')

/-- Modelled from the spec: the noisy-feature augmentation
`np.c_[X, random_state.randn(n_samples, 200 * n_features)]` — each
sample's feature vector is extended with `200 * n_features` values
drawn from the seeded generator. -/
def addNoisy (nNoise : Nat) :
    List (List ℚ × Nat) → RandomState → List (List ℚ × Nat) × RandomState
  | [], r => ([], r)
  | (x, lab) :: rest, r =>
    let (noise, r') := drawList r nNoise
    let (rest', r'') := addNoisy nNoise rest r'
    ((x ++ noise, lab) :: rest', r'')

/-- Modelled from the spec: the shuffle performed by
`train_test_split(..., random_state=random_state)` — a permutation
chosen from one draw of the seeded generator. -/
def shuffle (l : List α) (r : RandomState) : List α × RandomState :=
  let (k, r') := drawNat r
  (l.rotateLeft (k % (l.length + 1)), r')

/-- Dot product of a weight vector and a feature vector. -/
def dot (w x : List ℚ) : ℚ := (List.zipWith (fun a b => a * b) w x).sum

/-- Pointwise sum of two vectors, padding the shorter with zeros. -/
def vecAdd : List ℚ → List ℚ → List ℚ
  | [], ys => ys
  | xs, [] => xs
  | x :: xs, y :: ys => (x + y) :: vecAdd xs ys

/-- Pointwise negation of a vector. -/
def vecNeg (xs : List ℚ) : List ℚ := xs.map fun a => -a

/-- Modelled from the spec: fitting `LinearSVC(random_state=...)` for
the class whose label is `pos` — a deterministic function of the
training data and of one draw from the seeded generator (the
classifier's internal randomness). -/
def fitSVC (train : List (List ℚ × Nat)) (pos : Nat) (r : RandomState) :
    List ℚ × RandomState :=
  let (k, r') := drawNat r
  (train.foldl
      (fun w p => vecAdd w (if p.2 = pos then p.1 else vecNeg p.1))
      [(k : ℚ)],
   r')

/-- Modelled from the spec: `OneVsRestClassifier(LinearSVC(...))` — one
weight vector per class, fitted in class order, the generator threaded
through. -/
def fitOneVsRest (train : List (List ℚ × Nat)) (r : RandomState) :
    List Nat → List (List ℚ) × RandomState
  | [] => ([], r)
  | i :: is =>
    let (w, r') := fitSVC train i r
    let (ws, r'') := fitOneVsRest train r' is
    (w :: ws, r'')

/-- Everything the notebook computes and renders: the binary curve and
average precision, the per-class curves and average precisions, and the
micro-averaged curve and average precision. -/
structure PipelineOutput where
  binaryCurve : List (ℚ × ℚ)
  binaryAP : ℚ
  classCurves : List (List (ℚ × ℚ))
  classAPs : List ℚ
  microCurve : List (ℚ × ℚ)
  microAP : ℚ

/-- The whole notebook pipeline as one function of the input dataset.
Every source of randomness — the noisy features, both train/test
splits, and both classifiers — draws from the single generator seeded
with `RandomState(0)`. -/
def runProgram (samples : List (List ℚ × Nat)) : PipelineOutput :=
  let r0 := mkRandomState 0
  let (noisy, r1) := addNoisy 200 samples r0
  let (shuf1, r2) := shuffle (restrictFirstTwo noisy) r1
  let (tr1, te1) := train_test_split shuf1
  let (w1, r3) := fitSVC tr1 1 r2
  let labels1 := te1.map fun p => p.2 == 1
  let scores1 := te1.map fun p => dot w1 p.1
  let (shuf2, r4) := shuffle noisy r3
  let (tr2, te2) := train_test_split shuf2
  let (ws, _r5) := fitOneVsRest tr2 r4 (List.range nClasses)
  let classLabels := fun i => te2.map fun p => p.2 == i
  let classScores := fun i => te2.map fun p => dot (ws.getD i []) p.1
  let yFlat := te2.flatMap fun p => (List.range nClasses).map fun i =>
    p.2 == i
  let sFlat := te2.flatMap fun p => (List.range nClasses).map fun i =>
    dot (ws.getD i []) p.1
  { binaryCurve := precision_recall_curve labels1 scores1
    binaryAP := average_precision_score labels1 scores1
    classCurves := (List.range nClasses).map fun i =>
      precision_recall_curve (classLabels i) (classScores i)
    classAPs := (List.range nClasses).map fun i =>
      average_precision_score (classLabels i) (classScores i)
    microCurve := precision_recall_curve yFlat sFlat
    microAP := average_precision_score yFlat sFlat }

/-- C10: the pipeline is deterministic — since every source of
randomness is seeded from the single fixed `RandomState(0)` inside
`runProgram`, any two runs of the program on the same dataset produce
identical curves and identical average-precision values. -/
theorem pipeline_deterministic (samples : List (List ℚ × Nat))
    (run₁ run₂ : PipelineOutput) (h₁ : run₁ = runProgram samples)
    (h₂ : run₂ = runProgram samples) : run₁ = run₂ :=
  h₁.trans h₂.symm

/-- C10 witness: two runs on a concrete two-sample dataset agree. -/
theorem pipeline_deterministic_witness :
    runProgram [([1], 0), ([2], 1)] = runProgram [([1], 0), ([2], 1)] :=
  pipeline_deterministic [([1], 0), ([2], 1)] _ _ rfl rfl

end PrecisionRecall
